import Mathlib

/- Verification of the citation/source-extraction pipeline of the
clinical-trial document-QA frontend.  The definitions below are a shallow
embedding of the TypeScript sources:

  * `SourceExtractionService.parsePageReferences`  (sourceExtractionService.ts, lines 58-62)
  * `PDFExtractionService.extractPages` and `generateHighlightURL`  (pdfExtractionService)
  * `SourceExtractionService.extractTextFromPages` / `extractSources` /
    `createIntelligentFallback`  (sourceExtractionService.ts)
  * `AIServiceSwitcher.getServiceType` / `query`  (aiServiceSwitcher.ts)
  * the citation sorting of `PDFSourcesPanel`

JavaScript strings are modelled as Lean `String` (the inputs of interest are
ASCII, where UTF-16 indices and Lean char indices agree), JS numbers used as
page counts and indices as `Nat`/`Int`, and the fractional confidence /
relevance thresholds as `ℚ`.  Network calls and LLM replies are modelled as
explicit environment/oracle values passed to the functions. -/

/- ------------------------------------------------------------------ -/
/- Page Reference Parser:  `parsePageReferences` runs the global regex
`\[P(\d+)\]` over the response, maps each capture through `parseInt` and
drops falsy values (`filter(Boolean)`, which removes 0). -/

/-- Longest leading run of decimal digits of a character list, plus the rest. -/
def digitsSpan : List Char → List Char × List Char
  | [] => ([], [])
  | c :: cs =>
    if c.isDigit then
      let p := digitsSpan cs
      (c :: p.1, p.2)
    else ([], c :: cs)

/-- Decimal value of a digit list (the `parseInt(match, 10)` of the source). -/
def natOfDigits (ds : List Char) : Nat :=
  ds.foldl (fun n c => 10 * n + (c.toNat - 48)) 0

/-- Attempt to match the regex `\[P(\d+)\]` at the head of the list; on
success return the captured number and the characters after the match. -/
def pageRefAt : List Char → Option (Nat × List Char)
  | '[' :: 'P' :: rest =>
    (match digitsSpan rest with
     | (d :: ds, ']' :: a) => some (natOfDigits (d :: ds), a)
     | _ => none)
  | _ => none

/-- Scan for all (non-overlapping, leftmost) matches of `\[P(\d+)\]`, the
behaviour of `String.prototype.matchAll` with a global regex: after a match
the scan resumes after the match, after a failure it advances one character.
The fuel argument is `length + 1`, which always suffices because every step
consumes at least one character. -/
def scanPageRefs : Nat → List Char → List Nat
  | 0, _ => []
  | _, [] => []
  | fuel + 1, c :: cs =>
    match pageRefAt (c :: cs) with
    | some (n, a) => n :: scanPageRefs fuel a
    | none => scanPageRefs fuel cs

/-- Embedding of `SourceExtractionService.parsePageReferences`: collect every
`[P<number>]` marker in order, parse the numbers, and drop zeroes (the
source's `.filter(Boolean)`). -/
def SourceExtractionService.parsePageReferences (response : String) : List Nat :=
  (scanPageRefs (response.length + 1) response.data).filter (fun n => n != 0)

/- ------------------------------------------------------------------ -/
/- Highlight-Link Builder: `PDFExtractionService.generateHighlightURL`. -/

/-- ASCII word characters, the `\w` class of the source regex. -/
def isWordChar (c : Char) : Bool :=
  ('a' ≤ c && c ≤ 'z') || ('A' ≤ c && c ≤ 'Z') || ('0' ≤ c && c ≤ '9') || c = '_'

/-- ASCII whitespace, the `\s` class of the source regexes. -/
def isJsWs (c : Char) : Bool :=
  c = ' ' || c = '\t' || c = '\n' || c = '\r' || c = '\x0b' || c = '\x0c'

/-- Split on maximal whitespace runs, the semantics of
`String.prototype.split(/\s+/)` (a leading or trailing run contributes an
empty piece). -/
def splitWsRun : List Char → List Char → Bool → List String
  | [], cur, _ => [String.mk cur.reverse]
  | c :: cs, cur, inRun =>
    if isJsWs c then
      if inRun then splitWsRun cs cur true
      else String.mk cur.reverse :: splitWsRun cs [] true
    else splitWsRun cs (c :: cur) false

/-- The word-selection pipeline of `generateHighlightURL`: lower-case,
replace every character matching `[^\w\s]` by a space, split on whitespace,
keep words longer than 3 characters, take the first 3. -/
def highlightWords (searchText : String) : List String :=
  let lowered := String.mk (searchText.data.map Char.toLower)
  let replaced := String.mk
    (lowered.data.map (fun c => if isWordChar c || isJsWs c then c else ' '))
  ((splitWsRun replaced.data [] false).filter (fun w => 3 < w.length)).take 3

/-- UTF-8 bytes of a code point (used for percent-encoding). -/
def utf8Bytes (n : Nat) : List Nat :=
  if n < 128 then [n]
  else if n < 2048 then [192 + n / 64, 128 + n % 64]
  else if n < 65536 then [224 + n / 4096, 128 + (n / 64) % 64, 128 + n % 64]
  else [240 + n / 262144, 128 + (n / 4096) % 64, 128 + (n / 64) % 64, 128 + n % 64]

/-- Upper-case hexadecimal digit. -/
def hexDigitChar (n : Nat) : Char :=
  if n < 10 then Char.ofNat (48 + n) else Char.ofNat (55 + n)

/-- Percent-encoding of one byte. -/
def percentByte (b : Nat) : String :=
  String.mk ['%', hexDigitChar (b / 16), hexDigitChar (b % 16)]

/-- Characters `encodeURIComponent` leaves unescaped. -/
def isUriUnreserved (c : Char) : Bool :=
  ('a' ≤ c && c ≤ 'z') || ('A' ≤ c && c ≤ 'Z') || ('0' ≤ c && c ≤ '9') ||
    c = '-' || c = '_' || c = '.' || c = '!' || c = '~' || c = '*' ||
    c = '\'' || c = '(' || c = ')'

/-- Embedding of JavaScript `encodeURIComponent`. -/
def encodeURIComponent (s : String) : String :=
  String.join (s.data.map (fun c =>
    if isUriUnreserved c then String.singleton c
    else String.join ((utf8Bytes c.toNat).map percentByte)))

/-- Embedding of `PDFExtractionService.generateHighlightURL`: select the
keywords, join with spaces, percent-encode, and append the
`#page=<n>&search=<words>` locator to the base URL. -/
def PDFExtractionService.generateHighlightURL
    (pdfUrl : String) (page : Nat) (searchText : String) : String :=
  let words := String.intercalate " " (highlightWords searchText)
  pdfUrl ++ "#page=" ++ toString page ++ "&search=" ++ encodeURIComponent words

/- ------------------------------------------------------------------ -/
/- Theorems for the parser and the link builder. -/

/-- C7: `parsePageReferences` applied to the string
`"See [P3] and [P7] for details [P3]"` returns exactly `[3, 7, 3]`: each
`[P<number>]` marker in order of appearance, repetition preserved. -/
theorem parsePageReferences_example :
    SourceExtractionService.parsePageReferences "See [P3] and [P7] for details [P3]" =
      [3, 7, 3] := by
  rfl

/-- C10: every element returned by `parsePageReferences` is strictly
positive — the `.filter(Boolean)` of the source drops the page number 0, so
the parser never emits a value below the 1-based minimum. -/
theorem parsePageReferences_positive (s : String) (n : Nat)
    (h : n ∈ SourceExtractionService.parsePageReferences s) : 0 < n := by
  unfold SourceExtractionService.parsePageReferences at h
  have h2 := (List.mem_filter.mp h).2
  simp only [bne_iff_ne, ne_eq] at h2
  exact Nat.pos_of_ne_zero h2

/-- Witness for C10: a `[P0]` marker contributes nothing while `[P3]` does,
and the theorem yields positivity at that concrete input. -/
theorem parsePageReferences_positive_witness :
    3 ∈ SourceExtractionService.parsePageReferences "See [P0] and [P3]" ∧ 0 < 3 :=
  ⟨by decide, parsePageReferences_positive "See [P0] and [P3]" 3 (by decide)⟩

/-- C8: for the quote `"Patients must be between 18 and 65 years old"` the
selected words are the first three words longer than 3 characters, in
original order (`patients`, `must`, `between`), each longer than 3
characters, and the generated link appends them URL-encoded as the
`page`+`search` locator suffix. -/
theorem generateHighlightURL_example (base : String) (page : Nat) :
    highlightWords "Patients must be between 18 and 65 years old" =
        ["patients", "must", "between"] ∧
      (∀ w ∈ highlightWords "Patients must be between 18 and 65 years old",
        3 < w.length) ∧
      PDFExtractionService.generateHighlightURL base page
          "Patients must be between 18 and 65 years old" =
        base ++ "#page=" ++ toString page ++ "&search=" ++ "patients%20must%20between" := by
  refine ⟨by rfl, by decide, ?_⟩
  show base ++ "#page=" ++ toString page ++ "&search=" ++
      encodeURIComponent (String.intercalate " "
        (highlightWords "Patients must be between 18 and 65 years old")) = _
  have h : encodeURIComponent (String.intercalate " "
      (highlightWords "Patients must be between 18 and 65 years old")) =
      "patients%20must%20between" := by rfl
  rw [h]

/- ------------------------------------------------------------------ -/
/- Answer Service Router: `AIServiceSwitcher` (aiServiceSwitcher.ts).
Each provider call (`queryBackend`, `queryChatPDF`, `queryAnthropic`,
`queryAnthropicMockup`) already returns the provider's adapted
`UnifiedAIResponse` or throws; the adapters and request parameters do not
influence the routing, so a provider invocation is modelled as an
environment-supplied `Except` outcome and the response as an opaque
`String`. -/

/-- The four configurable service types of `AIServiceType`. -/
inductive AIServiceType
  | backend
  | chatpdf
  | anthropic
  | anthropicMockup
  deriving DecidableEq, Repr

/-- Outcome of invoking each provider once: the adapted response, or the
thrown error. -/
structure SwitcherEnv where
  backendResult : Except String String
  chatpdfResult : Except String String
  anthropicResult : Except String String
  mockupResult : Except String String

/-- The `switch (serviceType)` dispatch of `AIServiceSwitcher.query`. -/
def callService (env : SwitcherEnv) : AIServiceType → Except String String
  | .backend => env.backendResult
  | .chatpdf => env.chatpdfResult
  | .anthropic => env.anthropicResult
  | .anthropicMockup => env.mockupResult

/-- Embedding of `AIServiceSwitcher.query` for a resolved service type.
Returns the result together with the ordered trace of providers invoked:
the primary call, then (when the primary throws and is not `anthropic`) the
Anthropic fallback, then (when that also throws and the primary is not
`backend`) the final backend fallback, whose own error propagates; when the
primary is `backend` and the Anthropic fallback fails, the primary's error
is rethrown. -/
def AIServiceSwitcher.query (env : SwitcherEnv) (serviceType : AIServiceType) :
    Except String String × List AIServiceType :=
  match callService env serviceType with
  | .ok r => (.ok r, [serviceType])
  | .error e =>
    if serviceType ≠ .anthropic then
      match callService env .anthropic with
      | .ok r => (.ok r, [serviceType, .anthropic])
      | .error _ =>
        if serviceType ≠ .backend then
          (callService env .backend, [serviceType, .anthropic, .backend])
        else (.error e, [serviceType, .anthropic])
    else
      if serviceType ≠ .backend then
        (callService env .backend, [serviceType, .backend])
      else (.error e, [serviceType])

/-- Embedding of `AIServiceSwitcher.getServiceType`: the raw
`VITE_AI_SERVICE` value (absent or any string) is validated against the
four service names and otherwise defaults to `anthropic`. -/
def AIServiceSwitcher.getServiceType (raw : Option String) : AIServiceType :=
  match raw with
  | some "backend" => .backend
  | some "chatpdf" => .chatpdf
  | some "anthropic" => .anthropic
  | some "anthropic-mockup" => .anthropicMockup
  | _ => .anthropic

/-- Embedding of `query(params, overrideService?)` at the configuration
level: the service type is `overrideService || this.getServiceType()`. -/
def AIServiceSwitcher.queryConfigured (env : SwitcherEnv) (raw : Option String)
    (overrideService : Option AIServiceType) :
    Except String String × List AIServiceType :=
  AIServiceSwitcher.query env
    (match overrideService with
     | some s => s
     | none => AIServiceSwitcher.getServiceType raw)

/-- The raw configuration strings accepted by `getServiceType`. -/
def validServiceStrings : List (Option String) :=
  [some "backend", some "chatpdf", some "anthropic", some "anthropic-mockup"]

/-- C1: whenever the configured provider throws, (a) if it is not
`anthropic` and the Anthropic fallback succeeds, `query` returns the
Anthropic-adapted response and the call trace is exactly the primary call
followed by the Anthropic fallback — the final backend fallback is never
invoked; and (b) if the configured provider is already `anthropic`, the
Anthropic fallback hop is skipped and the router proceeds directly to the
final backend fallback, returning its outcome. -/
theorem query_fallback_chain (env : SwitcherEnv) (st : AIServiceType) (e : String)
    (hfail : callService env st = .error e) :
    (∀ r, st ≠ .anthropic → callService env .anthropic = .ok r →
        AIServiceSwitcher.query env st = (.ok r, [st, .anthropic])) ∧
      (st = .anthropic →
        AIServiceSwitcher.query env st =
          (callService env .backend, [.anthropic, .backend])) := by
  constructor
  · intro r hne hok
    unfold AIServiceSwitcher.query
    rw [hfail, hok]
    simp [hne]
  · intro heq
    subst heq
    unfold AIServiceSwitcher.query
    rw [hfail]
    simp

/-- Witness for C1: a concrete environment where ChatPDF throws and
Anthropic succeeds (part (a)), and one where the configured Anthropic
provider throws and the router hops straight to the backend (part (b)). -/
theorem query_fallback_chain_witness :
    AIServiceSwitcher.query
        ⟨.error "down", .error "boom", .ok "claude answer", .ok "mock"⟩ .chatpdf =
      (.ok "claude answer", [.chatpdf, .anthropic]) ∧
    AIServiceSwitcher.query
        ⟨.ok "backend answer", .ok "pdf", .error "claude down", .ok "mock"⟩ .anthropic =
      (.ok "backend answer", [.anthropic, .backend]) :=
  ⟨(query_fallback_chain
      ⟨.error "down", .error "boom", .ok "claude answer", .ok "mock"⟩ .chatpdf
      "boom" rfl).1 "claude answer" (by decide) rfl,
   (query_fallback_chain
      ⟨.ok "backend answer", .ok "pdf", .error "claude down", .ok "mock"⟩ .anthropic
      "claude down" rfl).2 rfl⟩

/-- C9: any configured value outside the four valid service strings
(including an unset variable) makes `query` behave exactly as if
`anthropic` were configured. -/
theorem getServiceType_default (env : SwitcherEnv) (raw : Option String)
    (h : raw ∉ validServiceStrings) :
    AIServiceSwitcher.queryConfigured env raw none =
      AIServiceSwitcher.query env .anthropic := by
  have hty : AIServiceSwitcher.getServiceType raw = .anthropic := by
    unfold AIServiceSwitcher.getServiceType
    split
    · exact absurd (by simp [validServiceStrings]) h
    · exact absurd (by simp [validServiceStrings]) h
    · rfl
    · exact absurd (by simp [validServiceStrings]) h
    · rfl
  unfold AIServiceSwitcher.queryConfigured
  rw [hty]

/-- Witness for C9: the invalid configured value `"groq"` routes exactly as
the Anthropic configuration. -/
theorem getServiceType_default_witness :
    (some "groq") ∉ validServiceStrings ∧
      AIServiceSwitcher.queryConfigured
          ⟨.ok "b", .ok "c", .ok "a", .ok "m"⟩ (some "groq") none =
        AIServiceSwitcher.query ⟨.ok "b", .ok "c", .ok "a", .ok "m"⟩ .anthropic :=
  ⟨by decide,
   getServiceType_default ⟨.ok "b", .ok "c", .ok "a", .ok "m"⟩ (some "groq")
     (by decide)⟩

/- ------------------------------------------------------------------ -/
/- PDF Text Extractor.  `PDFExtractionService.extractPages` loads the PDF
via PDF.js and extracts each requested in-range page; the per-page text
assembly (getTextContent, reading-order sort, whitespace normalisation) is
abstracted into the `pageContent` field of the loaded document, since the
claims concern only which pages are returned. -/

/-- A loaded PDF document: its page count and the text obtained for each
page by the PDF.js text-content pipeline. -/
structure PDFDoc where
  numPages : Nat
  pageContent : Nat → String

/-- The `PDFPage` result record of `pdfExtractionService` (the positioned
`textItems` are omitted; only `pageNumber` and `text` are consumed). -/
structure PDFPage where
  pageNumber : Nat
  text : String
  deriving DecidableEq

/-- Embedding of the page loop of `PDFExtractionService.extractPages`: a
requested page with `pageNum < 1 || pageNum > pdf.numPages` is skipped with
a warning (`continue`), every other page yields a `PDFPage`. -/
def PDFExtractionService.extractPages (pdf : PDFDoc) (pageNumbers : List Nat) :
    List PDFPage :=
  pageNumbers.filterMap (fun pageNum =>
    if pageNum < 1 ∨ pdf.numPages < pageNum then none
    else some { pageNumber := pageNum, text := pdf.pageContent pageNum })

/-- One `{ page, content }` record of `extractTextFromPages`. -/
structure PageTextEntry where
  page : Nat
  content : String
  deriving DecidableEq

/-- Environment of one extraction session: the outcome of loading the
document through PDF.js, and the outcome of the `pdf-parse` fallback (its
`numpages` and whole-document `text`); an `error` value models the
corresponding network/parse exception. -/
structure ExtractorEnv where
  pdfjs : Except String PDFDoc
  pdfParse : Except String (Nat × String)

/-- The `DocumentInfo` record of `sourceExtractionService`. -/
structure DocumentInfo where
  id : String
  name : String
  url : Option String
  file_url : Option String

/-- JavaScript `a || b` over possibly-absent strings: the first operand
that is present and non-empty (the empty string is falsy). -/
def firstTruthy (a b : Option String) : Option String :=
  match a with
  | some s =>
    if s = "" then
      match b with
      | some t => if t = "" then none else some t
      | none => none
    else some s
  | none =>
    match b with
    | some t => if t = "" then none else some t
    | none => none

/-- JavaScript array indexing `l[i]` with a possibly negative index. -/
def jsIdx {α : Type} (l : List α) (i : Int) : Option α :=
  if i < 0 then none else l.get? i.toNat

/-- JavaScript `String.prototype.substring` on character indices (the
arguments are swapped when out of order, and clamped to the length). -/
def jsSubstring (s : String) (a b : Nat) : String :=
  let lo := min a b
  let hi := max a b
  String.mk ((s.data.drop lo).take (hi - lo))

/-- JavaScript `String.prototype.trim` (ASCII whitespace at both ends). -/
def jsTrim (s : String) : String :=
  String.mk (((s.data.dropWhile isJsWs).reverse.dropWhile isJsWs).reverse)

/-- First index at or after `i` where `needle` occurs in `hay`. -/
def indexOfAux (needle : List Char) : List Char → Nat → Option Nat
  | [], i => if needle.isPrefixOf [] then some i else none
  | c :: t, i =>
    if needle.isPrefixOf (c :: t) then some i else indexOfAux needle t (i + 1)

/-- JavaScript `hay.indexOf(needle)` (`none` models `-1`). -/
def jsIndexOf (hay needle : String) : Option Nat :=
  indexOfAux needle.data hay.data 0

/-- JavaScript `text.indexOf(c, start)` for a single character. -/
def charIndexFrom (cs : List Char) (c : Char) (start : Nat) : Option Nat :=
  match indexOfAux [c] (cs.drop start) 0 with
  | some k => some (start + k)
  | none => none

/-- Embedding of `SourceExtractionService.splitTextIntoPages`: split the
whole-document text into `totalPages` roughly equal chunks, snapping each
boundary to the next sentence terminator when it is within 0.3 of the
average page length (the fractional comparison is modelled in `ℚ`). -/
def SourceExtractionService.splitTextIntoPages (text : String) (totalPages : Nat) :
    List String :=
  let textLength := text.length
  let avgPageLength := textLength / totalPages
  ((List.range totalPages).foldl
    (fun st _ =>
      let currentPos := st.1
      let start := currentPos
      let stop := min (currentPos + avgPageLength) textLength
      let actualEnd :=
        if stop < textLength then
          match charIndexFrom text.data '.' stop with
          | some nextSentenceEnd =>
            if ((nextSentenceEnd - stop : ℚ)) < (avgPageLength : ℚ) * (3 / 10) then
              nextSentenceEnd + 1
            else stop
          | none => stop
        else stop
      (actualEnd, st.2 ++ [jsTrim (jsSubstring text start actualEnd)]))
    ((0, []) : Nat × List String)).2

/-- Embedding of `SourceExtractionService.fallbackPDFExtraction`: the final
fallback maps every requested page number to a placeholder entry. -/
def SourceExtractionService.fallbackPDFExtraction (pdfUrl : String)
    (pageNumbers : List Nat) : List PageTextEntry :=
  pageNumbers.map (fun page =>
    { page := page,
      content := "Unable to extract specific content from page " ++ toString page ++
        ".\n\n      This document may have complex formatting or access restrictions.\n      The AI response above is based on the document content, but exact page text extraction failed." })

/-- Embedding of `SourceExtractionService.extractRealPDFText` (the
`pdf-parse` strategy): fetch and parse the whole document, split it into
approximate pages, and map every requested page number to its chunk,
defaulting to `Page N content not available` when the chunk is absent or
empty (`pages[pageNum - 1] || ...`); a fetch/parse exception is caught
internally and demotes to `fallbackPDFExtraction`. -/
def SourceExtractionService.extractRealPDFText (env : ExtractorEnv)
    (pdfUrl : String) (pageNumbers : List Nat) : List PageTextEntry :=
  match env.pdfParse with
  | .error _ => SourceExtractionService.fallbackPDFExtraction pdfUrl pageNumbers
  | .ok (numpages, text) =>
    let pages := SourceExtractionService.splitTextIntoPages text numpages
    pageNumbers.map (fun pageNum =>
      { page := pageNum,
        content :=
          match jsIdx pages ((pageNum : Int) - 1) with
          | some s =>
            if s = "" then "Page " ++ toString pageNum ++ " content not available"
            else s
          | none => "Page " ++ toString pageNum ++ " content not available" })

/-- Embedding of `SourceExtractionService.extractTextFromPages`.  The state
is the `textCache` map (document id to cached page texts); the returned
triple is the page texts, the number of network fetch attempts performed,
and the cache after the call.  The source checks the cache first, then
tries PDF.js, then `pdf-parse`, then the final placeholder fallback —
and never writes to `textCache` (no `set` call exists anywhere in the
service), so the cache is returned unchanged on every path. -/
def SourceExtractionService.extractTextFromPages (env : ExtractorEnv)
    (textCache : String → Option (List String)) (document : DocumentInfo)
    (pageNumbers : List Nat) :
    List PageTextEntry × Nat × (String → Option (List String)) :=
  match textCache document.id with
  | some cachedText =>
    (pageNumbers.map (fun pageNum =>
      { page := pageNum,
        content := (jsIdx cachedText ((pageNum : Int) - 1)).getD "" }),
     0, textCache)
  | none =>
    match firstTruthy document.url document.file_url with
    | none =>
      (SourceExtractionService.fallbackPDFExtraction "" pageNumbers, 0, textCache)
    | some pdfUrl =>
      match env.pdfjs with
      | .ok pdf =>
        let pdfPages := PDFExtractionService.extractPages pdf pageNumbers
        if 0 < pdfPages.length then
          (pdfPages.map (fun pg => { page := pg.pageNumber, content := pg.text }),
           1, textCache)
        else
          (SourceExtractionService.extractRealPDFText env pdfUrl pageNumbers,
           2, textCache)
      | .error _ =>
        (SourceExtractionService.extractRealPDFText env pdfUrl pageNumbers,
         2, textCache)

/- ------------------------------------------------------------------ -/
/- Theorems for the extractor (C2, C3). -/

/-- C2 (amended): the structural PDF.js extractor never returns a `PDFPage`
whose `pageNumber` lies outside `[1, numPages]` — every out-of-range
request is skipped (with a warning) and contributes no entry and no
error. -/
theorem extractPages_in_range (pdf : PDFDoc) (pageNumbers : List Nat)
    (pt : PDFPage) (h : pt ∈ PDFExtractionService.extractPages pdf pageNumbers) :
    1 ≤ pt.pageNumber ∧ pt.pageNumber ≤ pdf.numPages := by
  unfold PDFExtractionService.extractPages at h
  obtain ⟨a, _, hfa⟩ := List.mem_filterMap.mp h
  by_cases hc : a < 1 ∨ pdf.numPages < a
  · rw [if_pos hc] at hfa
    simp at hfa
  · rw [if_neg hc] at hfa
    push_neg at hc
    obtain rfl := Option.some.inj hfa
    exact hc

/-- Witness for C2's amended theorem: for a 3-page document the request
`[2, 99]` yields only the in-range page 2. -/
theorem extractPages_in_range_witness :
    ({ pageNumber := 2, text := "body" } : PDFPage) ∈
        PDFExtractionService.extractPages ⟨3, fun _ => "body"⟩ [2, 99] ∧
      1 ≤ 2 ∧ 2 ≤ 3 :=
  ⟨by decide, extractPages_in_range ⟨3, fun _ => "body"⟩ [2, 99] ⟨2, "body"⟩ (by decide)⟩

/-- C2 (counterexample to the claim as stated): for a document whose
`pdf-parse` fallback reports 5 pages, a request for page 99 — after the
PDF.js strategy fails — returns a `{ page := 99 }` placeholder entry, an
entry whose page number lies outside `[1, 5]`, instead of being skipped. -/
theorem extractTextFromPages_out_of_range_entry :
    (SourceExtractionService.extractTextFromPages
        ⟨.error "load failed",
         .ok (5, "Alpha beta. Gamma delta. Epsilon zeta. Eta theta. Iota kappa.")⟩
        (fun _ => none) ⟨"d1", "Protocol", some "https:doc", none⟩ [99]).1 =
      [{ page := 99, content := "Page 99 content not available" }] ∧
    ¬(99 ≤ 5) := by
  constructor
  · rfl
  · decide

/-- C3: the text cache is never populated — starting from the empty cache,
two identical `extractTextFromPages` calls for the same document and pages
return identical content, but the second call misses the cache again and
performs the same network fetch as the first (one PDF.js load each), and
the cache entry for the document is still absent afterwards. -/
theorem extractTextFromPages_refetches :
    (SourceExtractionService.extractTextFromPages
        ⟨.ok ⟨1, fun _ => "hello world"⟩, .error "unused"⟩ (fun _ => none)
        ⟨"d1", "Doc", some "https:doc", none⟩ [1]).1 =
      [{ page := 1, content := "hello world" }] ∧
    (SourceExtractionService.extractTextFromPages
        ⟨.ok ⟨1, fun _ => "hello world"⟩, .error "unused"⟩ (fun _ => none)
        ⟨"d1", "Doc", some "https:doc", none⟩ [1]).2.1 = 1 ∧
    (SourceExtractionService.extractTextFromPages
        ⟨.ok ⟨1, fun _ => "hello world"⟩, .error "unused"⟩
        ((SourceExtractionService.extractTextFromPages
            ⟨.ok ⟨1, fun _ => "hello world"⟩, .error "unused"⟩ (fun _ => none)
            ⟨"d1", "Doc", some "https:doc", none⟩ [1]).2.2)
        ⟨"d1", "Doc", some "https:doc", none⟩ [1]).1 =
      [{ page := 1, content := "hello world" }] ∧
    (SourceExtractionService.extractTextFromPages
        ⟨.ok ⟨1, fun _ => "hello world"⟩, .error "unused"⟩
        ((SourceExtractionService.extractTextFromPages
            ⟨.ok ⟨1, fun _ => "hello world"⟩, .error "unused"⟩ (fun _ => none)
            ⟨"d1", "Doc", some "https:doc", none⟩ [1]).2.2)
        ⟨"d1", "Doc", some "https:doc", none⟩ [1]).2.1 = 1 ∧
    ((SourceExtractionService.extractTextFromPages
        ⟨.ok ⟨1, fun _ => "hello world"⟩, .error "unused"⟩ (fun _ => none)
        ⟨"d1", "Doc", some "https:doc", none⟩ [1]).2.2) "d1" = none :=
  ⟨rfl, rfl, rfl, rfl, rfl⟩

/- ------------------------------------------------------------------ -/
/- Citation Locator data model and the deterministic keyword fallback
`createIntelligentFallback`. -/

/-- The three relevance tiers of a citation. -/
inductive Relevance
  | high
  | medium
  | low
  deriving DecidableEq, Repr

/-- The `PageReference` record of `sourceExtractionService` (the source's
`section` field is called `sectionLabel` here because `section` is a Lean
keyword). -/
structure PageReference where
  page : Nat
  sectionLabel : String
  exactText : String
  relevance : Relevance
  context : String
  highlightURL : Option String
  deriving DecidableEq

/-- The `ExtractionResult` record: citations plus a scalar confidence
(JS floating point modelled as `ℚ`). -/
structure ExtractionResult where
  sources : List PageReference
  confidence : ℚ
  deriving DecidableEq

/-- Per-citation confidence weight of the fallback
(`high: 0.3, medium: 0.2, low: 0.1`). -/
def relevanceWeight : Relevance → ℚ
  | .high => 3 / 10
  | .medium => 2 / 10
  | .low => 1 / 10

/-- The heading regex `^([A-Z][^.]{10,60})\n` of the fallback's section
inference: an upper-case letter followed by 10 to 60 non-period characters
and a newline; the greedy quantifier makes the captured run the longest
such prefix. -/
def headingCapture (content : String) : Option String :=
  match content.data with
  | [] => none
  | c :: rest =>
    if 'A' ≤ c ∧ c ≤ 'Z' then
      let ks := (List.range 61).filter (fun k =>
        10 ≤ k && (rest.take k).all (fun d => d != '.') && rest.get? k == some '\n')
      match ks with
      | [] => none
      | _ => some (String.mk (c :: rest.take (ks.foldl max 0)))
    else none

/-- Section label of a fallback citation: the captured heading (trimmed),
else `Page N`. -/
def inferSection (page : Nat) (content : String) : String :=
  match headingCapture content with
  | some cap => jsTrim cap
  | none => "Page " ++ toString page

/-- JavaScript `String.prototype.toLowerCase` (ASCII case mapping). -/
def jsToLower (s : String) : String :=
  String.mk (s.data.map Char.toLower)

/-- Splitting on a single-space separator, the semantics of
`String.prototype.split(' ')` with a plain string separator (consecutive
separators produce empty pieces). -/
def splitOnSpaceAux : List Char → List Char → List String
  | [], cur => [String.mk cur.reverse]
  | c :: cs, cur =>
    if c = ' ' then String.mk cur.reverse :: splitOnSpaceAux cs []
    else splitOnSpaceAux cs (c :: cur)

/-- JavaScript `s.split(' ')`. -/
def jsSplitOnSpace (s : String) : List String :=
  splitOnSpaceAux s.data []

/-- The keyword loop of `createIntelligentFallback` for one page: for each
query word found in the lower-cased page text, bump the match count and
retain the longest excerpt window (`index-100 .. index+300`, clamped)
together with its wider context window (`index-200 .. index+400`).
Returns `(bestMatch, bestContext, matchScore)`. -/
def fallbackScan (content pageTextLower : String) (queryWords : List String) :
    String × String × Nat :=
  queryWords.foldl
    (fun acc word =>
      match jsIndexOf pageTextLower word with
      | none => acc
      | some index =>
        let matchScore := acc.2.2 + 1
        let chunk := jsSubstring content (index - 100) (min content.length (index + 300))
        if acc.1.length < chunk.length then
          (chunk,
           jsSubstring content (index - 200) (min content.length (index + 400)),
           matchScore)
        else (acc.1, acc.2.1, matchScore))
    ("", "", 0)

/-- Embedding of `SourceExtractionService.createIntelligentFallback`: the
deterministic keyword-overlap heuristic.  Query keywords are the
space-separated words of the lower-cased question longer than 3
characters; a page with no keyword hit falls back to its leading 300/500
characters; relevance is `high` when the match count reaches 0.7 times the
keyword count, `medium` at 0.3 times, else `low`; the overall confidence
is `min 0.8 (sum of weights)` for a non-empty citation list and 0.3
otherwise. -/
def SourceExtractionService.createIntelligentFallback
    (originalQuery chatPDFResponse : String) (pageTexts : List PageTextEntry) :
    ExtractionResult :=
  let sources := pageTexts.map (fun pt =>
    let queryWords := (jsSplitOnSpace (jsToLower originalQuery)).filter (fun w => 3 < w.length)
    let pageText := jsToLower pt.content
    let scan := fallbackScan pt.content pageText queryWords
    let bestMatch := if scan.2.2 = 0 then jsSubstring pt.content 0 300 else scan.1
    let bestContext := if scan.2.2 = 0 then jsSubstring pt.content 0 500 else scan.2.1
    let relevance :=
      if (queryWords.length : ℚ) * (7 / 10) ≤ (scan.2.2 : ℚ) then Relevance.high
      else if (queryWords.length : ℚ) * (3 / 10) ≤ (scan.2.2 : ℚ) then Relevance.medium
      else Relevance.low
    { page := pt.page,
      sectionLabel := inferSection pt.page pt.content,
      exactText := jsTrim bestMatch,
      relevance := relevance,
      context := jsTrim bestContext,
      highlightURL := none })
  let confidence : ℚ :=
    if 0 < sources.length then
      min (4 / 5) (sources.foldl (fun acc s => acc + relevanceWeight s.relevance) 0)
    else 3 / 10
  ⟨sources, confidence⟩

/- ------------------------------------------------------------------ -/
/- Theorems for the keyword fallback (C5). -/

/-- C5 (counterexample to the claim as stated): for the question
`"what is the enrollment age limit"` and the single page
`"Patients must be between 18 and 65 years old to enroll"`, the fallback
classifies the citation as `low` — not `high` or `medium` — because none
of the retained keywords (`what`, `enrollment`, `limit`; `age` is only 3
characters and is filtered out) occurs as a substring of the page text
(`enrollment` does not occur in `... to enroll`), so the match count is
0, below the `0.3 × 3` medium threshold. -/
theorem createIntelligentFallback_enrollment_not_high_or_medium :
    ((SourceExtractionService.createIntelligentFallback
        "what is the enrollment age limit" "answer"
        [{ page := 1,
           content := "Patients must be between 18 and 65 years old to enroll" }]).sources.map
      (fun s => s.relevance)) = [Relevance.low] ∧
      Relevance.low ≠ Relevance.high ∧ Relevance.low ≠ Relevance.medium := by
  have hq : (jsSplitOnSpace (jsToLower "what is the enrollment age limit")).filter
      (fun w => 3 < w.length) = ["what", "enrollment", "limit"] := by decide
  have hscan : fallbackScan "Patients must be between 18 and 65 years old to enroll"
      (jsToLower "Patients must be between 18 and 65 years old to enroll")
      ["what", "enrollment", "limit"] = ("", "", 0) := by decide
  refine ⟨?_, by decide, by decide⟩
  simp only [SourceExtractionService.createIntelligentFallback, List.map_cons,
    List.map_nil, hq, hscan]
  norm_num

/-- C5 (amended): on that question/page pair the fallback deterministically
produces exactly one citation, for page 1, with relevance `low` (zero
keyword matches) and confidence `0.1`. -/
theorem createIntelligentFallback_enrollment_low :
    ((SourceExtractionService.createIntelligentFallback
        "what is the enrollment age limit" "answer"
        [{ page := 1,
           content := "Patients must be between 18 and 65 years old to enroll" }]).sources.map
      (fun s => (s.page, s.relevance))) = [(1, Relevance.low)] ∧
      (SourceExtractionService.createIntelligentFallback
        "what is the enrollment age limit" "answer"
        [{ page := 1,
           content := "Patients must be between 18 and 65 years old to enroll" }]).confidence =
        1 / 10 := by
  have hq : (jsSplitOnSpace (jsToLower "what is the enrollment age limit")).filter
      (fun w => 3 < w.length) = ["what", "enrollment", "limit"] := by decide
  have hscan : fallbackScan "Patients must be between 18 and 65 years old to enroll"
      (jsToLower "Patients must be between 18 and 65 years old to enroll")
      ["what", "enrollment", "limit"] = ("", "", 0) := by decide
  constructor
  · simp only [SourceExtractionService.createIntelligentFallback, List.map_cons,
      List.map_nil, hq, hscan]
    norm_num
  · simp only [SourceExtractionService.createIntelligentFallback, List.map_cons,
      List.map_nil, hq, hscan, relevanceWeight]
    norm_num

/- ------------------------------------------------------------------ -/
/- The full source-extraction pipeline `extractSources`.  The two LLM
matchers (`findSourcesWithOpenAI`, `findSourcesWithGroq`) return whatever
`ExtractionResult` the provider's JSON parses to, or throw; each is
modelled as an optional (`none` = client not configured) `Except` outcome
supplied by an oracle. -/

/-- Outcomes of the two LLM source-matching calls for one query. -/
structure AIOracle where
  openaiResult : Option (Except String ExtractionResult)
  groqResult : Option (Except String ExtractionResult)

/-- The result delivered by the AI paths of `findExactSources`, if any:
OpenAI's parsed reply when the client exists and the call succeeds, else
Groq's, else `none`. -/
def oracleYields (oracle : AIOracle) : Option ExtractionResult :=
  match oracle.openaiResult with
  | some (.ok r) => some r
  | _ =>
    match oracle.groqResult with
    | some (.ok r) => some r
    | _ => none

/-- Embedding of `SourceExtractionService.findExactSources`: try OpenAI,
then Groq (each skipped when unconfigured, each error caught), and fall
back to the deterministic keyword matcher. -/
def SourceExtractionService.findExactSources (oracle : AIOracle)
    (originalQuery chatPDFResponse : String) (pageTexts : List PageTextEntry) :
    ExtractionResult :=
  match oracle.openaiResult with
  | some (.ok r) => r
  | _ =>
    match oracle.groqResult with
    | some (.ok r) => r
    | _ =>
      SourceExtractionService.createIntelligentFallback
        originalQuery chatPDFResponse pageTexts

/-- `Math.min(...pageNumbers)` for a non-empty list. -/
def listMin : List Nat → Nat
  | [] => 0
  | x :: t => t.foldl min x

/-- `Math.max(...pageNumbers)` for a non-empty list. -/
def listMax : List Nat → Nat
  | [] => 0
  | x :: t => t.foldl max x

/-- The page numbers used by `extractSources`: the provider-native
references when present and non-empty, else the parsed `[P<n>]` markers. -/
def referencedPages (chatPDFResponse : String)
    (chatPDFReferences : Option (List Nat)) : List Nat :=
  match chatPDFReferences with
  | some refs =>
    if 0 < refs.length then refs
    else SourceExtractionService.parsePageReferences chatPDFResponse
  | none => SourceExtractionService.parsePageReferences chatPDFResponse

/-- Embedding of `SourceExtractionService.extractSources`: collect page
references (empty set short-circuits to `{ sources := [], confidence := 0 }`),
expand the range by one page on each side (`max 1 (min-1) .. max+1`),
extract the page texts, locate citations via `findExactSources`, and — when
the document has a usable URL — attach a highlight URL to every citation. -/
def SourceExtractionService.extractSources (env : ExtractorEnv)
    (textCache : String → Option (List String)) (oracle : AIOracle)
    (originalQuery chatPDFResponse : String) (document : DocumentInfo)
    (chatPDFReferences : Option (List Nat)) : ExtractionResult :=
  let pageNumbers := referencedPages chatPDFResponse chatPDFReferences
  if pageNumbers.isEmpty then { sources := [], confidence := 0 }
  else
    let minPage := max 1 (listMin pageNumbers - 1)
    let maxPage := listMax pageNumbers + 1
    let expandedPages := List.range' minPage (maxPage + 1 - minPage)
    let pageTexts :=
      (SourceExtractionService.extractTextFromPages env textCache document
        expandedPages).1
    let result :=
      SourceExtractionService.findExactSources oracle originalQuery
        chatPDFResponse pageTexts
    match firstTruthy document.url document.file_url with
    | some pdfUrl =>
      { sources := result.sources.map (fun s =>
          { s with highlightURL := some (PDFExtractionService.generateHighlightURL pdfUrl s.page s.exactText) }),
        confidence := result.confidence }
    | none => result

/- ------------------------------------------------------------------ -/
/- Helper lemmas for the pipeline-level confidence invariant. -/

/-- `fallbackPDFExtraction` yields one entry per requested page. -/
theorem fallbackPDFExtraction_ne_nil (pdfUrl : String) (pageNumbers : List Nat)
    (h : pageNumbers ≠ []) :
    SourceExtractionService.fallbackPDFExtraction pdfUrl pageNumbers ≠ [] := by
  unfold SourceExtractionService.fallbackPDFExtraction
  simpa using h

/-- `extractRealPDFText` yields one entry per requested page. -/
theorem extractRealPDFText_ne_nil (env : ExtractorEnv) (pdfUrl : String)
    (pageNumbers : List Nat) (h : pageNumbers ≠ []) :
    SourceExtractionService.extractRealPDFText env pdfUrl pageNumbers ≠ [] := by
  unfold SourceExtractionService.extractRealPDFText
  split
  · exact fallbackPDFExtraction_ne_nil _ _ h
  · simpa using h

/-- Every strategy of `extractTextFromPages` returns at least one entry for
a non-empty request. -/
theorem extractTextFromPages_ne_nil (env : ExtractorEnv)
    (textCache : String → Option (List String)) (document : DocumentInfo)
    (pageNumbers : List Nat) (h : pageNumbers ≠ []) :
    (SourceExtractionService.extractTextFromPages env textCache document
      pageNumbers).1 ≠ [] := by
  unfold SourceExtractionService.extractTextFromPages
  split
  · simpa using h
  · split
    · simpa using fallbackPDFExtraction_ne_nil "" pageNumbers h
    · split
      · dsimp only
        split
        · rename_i hlen
          simpa using List.length_pos.mp hlen
        · simpa using extractRealPDFText_ne_nil env _ pageNumbers h
      · simpa using extractRealPDFText_ne_nil env _ pageNumbers h

/-- The fallback's citation weights are positive. -/
theorem relevanceWeight_pos (r : Relevance) : 0 < relevanceWeight r := by
  cases r <;> norm_num [relevanceWeight]

/-- The confidence fold of the fallback never decreases below its
accumulator. -/
theorem confidence_foldl_le (l : List PageReference) (acc : ℚ) :
    acc ≤ l.foldl (fun a s => a + relevanceWeight s.relevance) acc := by
  induction l generalizing acc with
  | nil => simp
  | cons s t ih =>
    calc acc ≤ acc + relevanceWeight s.relevance := by
          have := relevanceWeight_pos s.relevance
          linarith
      _ ≤ t.foldl (fun a s => a + relevanceWeight s.relevance)
            (acc + relevanceWeight s.relevance) := ih _

/-- The fallback result carries a strictly positive confidence whenever it
is fed at least one page. -/
theorem createIntelligentFallback_sources_ne_nil
    (originalQuery chatPDFResponse : String) (pageTexts : List PageTextEntry)
    (h : pageTexts ≠ []) :
    (SourceExtractionService.createIntelligentFallback originalQuery
      chatPDFResponse pageTexts).sources ≠ [] := by
  unfold SourceExtractionService.createIntelligentFallback
  simpa using h

/-- A `min`-fold over naturals stays below its accumulator. -/
theorem foldl_min_le (x : Nat) (t : List Nat) : t.foldl min x ≤ x := by
  induction t generalizing x with
  | nil => simp
  | cons c t ih =>
    calc (c :: t).foldl min x = t.foldl min (min x c) := by simp
      _ ≤ min x c := ih (min x c)
      _ ≤ x := min_le_left x c

/-- A `max`-fold over naturals stays above its accumulator. -/
theorem le_foldl_max (x : Nat) (t : List Nat) : x ≤ t.foldl max x := by
  induction t generalizing x with
  | nil => simp
  | cons c t ih =>
    calc x ≤ max x c := le_max_left x c
      _ ≤ t.foldl max (max x c) := ih (max x c)
      _ = (c :: t).foldl max x := by simp

/-- The expanded page range of `extractSources` is never empty. -/
theorem expandedPages_ne_nil (pageNumbers : List Nat) :
    List.range' (max 1 (listMin pageNumbers - 1))
      (listMax pageNumbers + 1 + 1 - max 1 (listMin pageNumbers - 1)) ≠ [] := by
  have hmin : max 1 (listMin pageNumbers - 1) ≤ listMax pageNumbers + 1 := by
    rcases pageNumbers with - | ⟨x, t⟩
    · simp [listMin, listMax]
    · have h1 : listMin (x :: t) ≤ x := foldl_min_le x t
      have h2 : x ≤ listMax (x :: t) := le_foldl_max x t
      omega
  intro hnil
  rw [List.range'_eq_nil] at hnil
  omega

/-- When neither LLM path yields a parsed result, `findExactSources` is the
deterministic fallback. -/
theorem findExactSources_of_no_oracle (oracle : AIOracle) (q resp : String)
    (pts : List PageTextEntry) (h : oracleYields oracle = none) :
    SourceExtractionService.findExactSources oracle q resp pts =
      SourceExtractionService.createIntelligentFallback q resp pts := by
  obtain ⟨o, g⟩ := oracle
  rcases o with - | o
  · rcases g with - | g
    · rfl
    · rcases g with e | r
      · rfl
      · simp [oracleYields] at h
  · rcases o with e | r
    · rcases g with - | g
      · rfl
      · rcases g with e2 | r
        · rfl
        · simp [oracleYields] at h
    · simp [oracleYields] at h

/-- C4 (amended): when no AI provider yields a parsed result, the pipeline's
`ExtractionResult` has an empty citation list exactly when no page
references were found, and an empty citation list always carries
confidence 0 (both the no-references short-circuit and the error path
return `{ sources := [], confidence := 0 }`; the deterministic fallback
produces one citation per extracted page, hence never an empty list).
An AI-parsed result, by contrast, is passed through unvalidated. -/
theorem extractSources_confidence_zero_iff (env : ExtractorEnv)
    (textCache : String → Option (List String)) (oracle : AIOracle)
    (originalQuery chatPDFResponse : String) (document : DocumentInfo)
    (chatPDFReferences : Option (List Nat))
    (h : oracleYields oracle = none) :
    ((SourceExtractionService.extractSources env textCache oracle originalQuery
        chatPDFResponse document chatPDFReferences).sources = [] ↔
      referencedPages chatPDFResponse chatPDFReferences = []) ∧
    ((SourceExtractionService.extractSources env textCache oracle originalQuery
        chatPDFResponse document chatPDFReferences).sources = [] →
      (SourceExtractionService.extractSources env textCache oracle originalQuery
        chatPDFResponse document chatPDFReferences).confidence = 0) := by
  simp only [SourceExtractionService.extractSources]
  split
  · rename_i hpn
    refine ⟨⟨fun _ => ?_, fun _ => rfl⟩, fun _ => rfl⟩
    exact List.isEmpty_iff.mp hpn
  · rename_i hpn
    have hne : referencedPages chatPDFResponse chatPDFReferences ≠ [] := by
      intro hcontra
      exact hpn (by simp [hcontra])
    have hpt := extractTextFromPages_ne_nil env textCache document _
      (expandedPages_ne_nil (referencedPages chatPDFResponse chatPDFReferences))
    have hsrc : (SourceExtractionService.findExactSources oracle originalQuery
        chatPDFResponse
        (SourceExtractionService.extractTextFromPages env textCache document
          (List.range'
            (max 1 (listMin (referencedPages chatPDFResponse chatPDFReferences) - 1))
            (listMax (referencedPages chatPDFResponse chatPDFReferences) + 1 + 1 -
              max 1 (listMin (referencedPages chatPDFResponse chatPDFReferences) - 1)))).1).sources ≠
        [] := by
      rw [findExactSources_of_no_oracle oracle originalQuery chatPDFResponse _ h]
      exact createIntelligentFallback_sources_ne_nil _ _ _ hpt
    have hmapgen : ∀ (f : PageReference → PageReference) (l : List PageReference),
        l ≠ [] → List.map f l ≠ [] := by
      intro f l hl
      simpa using hl
    split
    · exact ⟨iff_of_false (hmapgen _ _ hsrc) hne,
        fun hf => absurd hf (hmapgen _ _ hsrc)⟩
    · exact ⟨iff_of_false hsrc hne, fun hf => absurd hf hsrc⟩

/-- Witness for C4's amended theorem: with no AI providers and a response
without page markers, the pipeline returns the empty result. -/
theorem extractSources_confidence_zero_iff_witness :
    oracleYields ⟨none, none⟩ = none ∧
    (((SourceExtractionService.extractSources ⟨.error "e", .error "e"⟩
        (fun _ => none) ⟨none, none⟩ "question" "no page markers here"
        ⟨"d1", "Doc", some "https:doc", none⟩ none).sources = [] ↔
      referencedPages "no page markers here" none = []) ∧
    ((SourceExtractionService.extractSources ⟨.error "e", .error "e"⟩
        (fun _ => none) ⟨none, none⟩ "question" "no page markers here"
        ⟨"d1", "Doc", some "https:doc", none⟩ none).sources = [] →
      (SourceExtractionService.extractSources ⟨.error "e", .error "e"⟩
        (fun _ => none) ⟨none, none⟩ "question" "no page markers here"
        ⟨"d1", "Doc", some "https:doc", none⟩ none).confidence = 0)) :=
  ⟨rfl,
   extractSources_confidence_zero_iff ⟨.error "e", .error "e"⟩ (fun _ => none)
     ⟨none, none⟩ "question" "no page markers here"
     ⟨"d1", "Doc", some "https:doc", none⟩ none rfl⟩

/-- C4 (counterexample to the claim as stated): an AI provider whose parsed
JSON is `{ sources: [], confidence: 0.9 }` makes the pipeline return an
`ExtractionResult` with an empty citation list and confidence 0.9 — the
parsed reply is not validated against the empty-citations-means-zero
invariant. -/
theorem extractSources_empty_sources_nonzero_confidence :
    (SourceExtractionService.extractSources ⟨.error "e", .error "e"⟩
        (fun _ => none) ⟨some (.ok ⟨[], 9 / 10⟩), none⟩ "question" "see [P2]"
        ⟨"d1", "Doc", some "https:doc", none⟩ (some [2])).sources = [] ∧
    (SourceExtractionService.extractSources ⟨.error "e", .error "e"⟩
        (fun _ => none) ⟨some (.ok ⟨[], 9 / 10⟩), none⟩ "question" "see [P2]"
        ⟨"d1", "Doc", some "https:doc", none⟩ (some [2])).confidence = 9 / 10 ∧
    (9 / 10 : ℚ) ≠ 0 := by
  refine ⟨rfl, rfl, by norm_num⟩

/- ------------------------------------------------------------------ -/
/- Citation ranking: the `sortedSources` computation of `PDFSourcesPanel`.
The panel's `PDFSource` records have optional fields; only `relevance` and
`page` take part in the comparator. -/

/-- The `PDFSource` interface of the panel (the source's `section` field is
called `sectionLabel` here because `section` is a Lean keyword). -/
structure PDFSource where
  page : Nat
  sectionLabel : Option String
  exactText : Option String
  relevance : Option Relevance
  context : Option String
  deriving DecidableEq

/-- The panel's `relevanceOrder` lookup with its `|| 'medium'` default:
high 3, medium 2, low 1, missing 2. -/
def relevanceOrderRank : Option Relevance → Nat
  | some .high => 3
  | some .medium => 2
  | some .low => 1
  | none => 2

/-- The total preorder realised by the panel's comparator: higher
relevance rank first, and equal ranks ordered by ascending page. -/
def panelRel (a b : PDFSource) : Prop :=
  relevanceOrderRank b.relevance < relevanceOrderRank a.relevance ∨
    (relevanceOrderRank a.relevance = relevanceOrderRank b.relevance ∧
      a.page ≤ b.page)

instance : DecidableRel panelRel := fun a b => by
  unfold panelRel
  infer_instance

instance : IsTotal PDFSource panelRel :=
  ⟨by
    intro a b
    unfold panelRel
    omega⟩

instance : IsTrans PDFSource panelRel :=
  ⟨by
    intro a b c
    unfold panelRel
    omega⟩

/-- The `sources.sort(comparator)` of `PDFSourcesPanel`, modelled as the
stable insertion sort realising the comparator's total preorder
(ECMAScript `Array.prototype.sort` is stable). -/
def sortPanelSources (sources : List PDFSource) : List PDFSource :=
  List.insertionSort panelRel sources

/-- C6: every citation list handed to the panel's consumer is sorted by
relevance descending and, within equal relevance, ascending page number;
for the input pages `[5 (medium), 2 (high), 9 (high), 3 (low)]` the output
order is `[2 (high), 9 (high), 5 (medium), 3 (low)]`. -/
theorem panel_sources_sorted (l : List PDFSource) :
    (sortPanelSources l).Sorted panelRel ∧
      sortPanelSources
          [⟨5, none, none, some .medium, none⟩, ⟨2, none, none, some .high, none⟩,
           ⟨9, none, none, some .high, none⟩, ⟨3, none, none, some .low, none⟩] =
        [⟨2, none, none, some .high, none⟩, ⟨9, none, none, some .high, none⟩,
         ⟨5, none, none, some .medium, none⟩, ⟨3, none, none, some .low, none⟩] :=
  ⟨List.sorted_insertionSort panelRel l, by decide⟩
